import Mathlib

/-!
Verification of the cooperative action-scheduling and mode-management core of
the bird_friend repository (the crow-chonky variant), as a shallow embedding.

Sources embedded here:
- `7_crow-chonky/main.py` (`CrowBird.check_conditions`)
- `7_crow-chonky/modes/base_mode.py` (`BaseMode.check_conditions_and_act`,
  `BaseMode.perform_action`, `BaseMode.run` loop body)
- `7_crow-chonky/modes/clock_mode.py` (`ClockMode.on_button_press`,
  `ClockMode.perform_hourly_chime`, finish callbacks)
- `7_crow-chonky/modes/random_mode.py` (`RandomMode.mode_init`,
  `RandomMode.get_next_interval`)
- `7_crow-chonky/modes/mode_manager.py` (`ModeManager`)
- `lib_circuitpython/amplifier.py` (`Amplifier._find_optimal_file_combination`,
  `Amplifier._handle_fallback`)
- The delayed-action queue (`schedule_action` / `check_scheduled_actions`)
  is called by `ClockMode` but its implementation is not present in the
  repository sources; it is modelled from the specification (see below).

Timestamps and durations are rationals; Python dicts of the config become
explicit lists / options; runtime exceptions become `Except`.
-/

/-! ## Condition evaluation and dispatch (main.py, base_mode.py) -/

/-- Sensor/battery inputs visible to `CrowBird.check_conditions`:
whether battery monitoring is enabled (`self.battery` is not None),
whether `is_critical_battery()` holds, and whether
`light_sensor.over_minimum()` holds. -/
structure SensorState where
  batteryEnabled : Bool
  batteryCritical : Bool
  lightSufficient : Bool
deriving DecidableEq, Repr

/-- The condition strings returned by `CrowBird.check_conditions`. -/
inductive Condition where
  | critical_battery
  | light_sufficient
  | too_dark
deriving DecidableEq, Repr

/-- Embedding of `CrowBird.check_conditions` (main.py lines 307-324):
if battery monitoring is enabled and the battery is critical, return
`(False, "critical_battery")`; otherwise return the light sufficiency flag
together with `"light_sufficient"` or `"too_dark"`. -/
def check_conditions (s : SensorState) : Bool × Condition :=
  if s.batteryEnabled && s.batteryCritical then
    (false, Condition.critical_battery)
  else
    (s.lightSufficient,
      if s.lightSufficient then Condition.light_sufficient else Condition.too_dark)

/-- The three action variants `BaseMode.check_conditions_and_act` can
dispatch to. -/
inductive ActionChoice where
  | battery_warning
  | full_action
  | night_action
deriving DecidableEq, Repr

/-- Embedding of `BaseMode.check_conditions_and_act` (base_mode.py lines
180-199): call `crow.check_conditions()`; if the condition is
`"critical_battery"` perform the battery warning, else if the light is
sufficient perform the full action, else perform the night action. -/
def check_conditions_and_act (s : SensorState) : ActionChoice :=
  let r := check_conditions s
  if r.2 = Condition.critical_battery then ActionChoice.battery_warning
  else if r.1 then ActionChoice.full_action
  else ActionChoice.night_action

/-! ## ClockMode hour advancement (clock_mode.py) -/

/-- `ClockMode.mode_init` (and `__init__`) set `self.current_hour = 12`. -/
def clockInitialHour : Nat := 12

/-- Embedding of `ClockMode.on_button_press` (clock_mode.py lines 174-183)
restricted to its effect on `current_hour`: increment, and reset to 1 when
the result exceeds 12. -/
def advance_hour (h : Nat) : Nat :=
  if h + 1 > 12 then 1 else h + 1

/-! ## Delayed-action queue (modelled from the spec)

`ClockMode` calls `self.schedule_action(delay, callback, label)` and
`self.check_scheduled_actions()` and reads `self.scheduled_actions`
(clock_mode.py lines 115-116, 185-200), but the implementation of these
members is not present anywhere in the repository sources. -/

/-- Modelled from the spec: a ScheduledAction of the DelayedActionQueue,
`{id: integer, target_time: monotonic timestamp, callback, label}` (spec
section 3); the implementation behind `BaseMode.schedule_action` is missing
from the sources. The callback is kept abstract as a payload of type `α`. -/
structure ScheduledAction (α : Type) where
  id : Nat
  target_time : Rat
  label : String
  callback : α
deriving DecidableEq, Repr

/-- Modelled from the spec: the DelayedActionQueue state, "pending callbacks
keyed by a monotonic target time" with monotonically increasing ids (spec
sections 2 and 4.1); the implementation behind `self.scheduled_actions` is
missing from the sources. -/
structure DelayedActionQueue (α : Type) where
  next_id : Nat
  pending : List (ScheduledAction α)
deriving DecidableEq, Repr

/-- The empty queue. -/
def DelayedActionQueue.empty (α : Type) : DelayedActionQueue α :=
  { next_id := 0, pending := [] }

/-- Modelled from the spec: `schedule(delay, callback, label) -> action_id`
(spec section 4.1) — the scheduled action's target time is `now + delay`
and its id is the next monotonically increasing id; the implementation
behind `BaseMode.schedule_action` is missing from the sources. -/
def DelayedActionQueue.schedule (q : DelayedActionQueue α) (now delay : Rat)
    (cb : α) (label : String) : Nat × DelayedActionQueue α :=
  (q.next_id,
    { next_id := q.next_id + 1,
      pending := q.pending ++
        [{ id := q.next_id, target_time := now + delay, label := label,
           callback := cb }] })

/-- Ordering key used when draining: ascending `target_time`, ties broken by
ascending `id` (first-scheduled first — the stable refinement the spec's
"executes ... in ascending target_time order" property requires). -/
def actKeyLt (a b : ScheduledAction α) : Prop :=
  a.target_time < b.target_time ∨
    (a.target_time = b.target_time ∧ a.id < b.id)

instance (a b : ScheduledAction α) : Decidable (actKeyLt a b) := by
  unfold actKeyLt; infer_instance

/-- Non-strict version of `actKeyLt`, the relation the drain's insertion
sort uses. -/
def actKeyLe (a b : ScheduledAction α) : Prop :=
  a.target_time < b.target_time ∨
    (a.target_time = b.target_time ∧ a.id ≤ b.id)

instance (a b : ScheduledAction α) : Decidable (actKeyLe a b) := by
  unfold actKeyLe; infer_instance

instance : IsTotal (ScheduledAction α) actKeyLe where
  total a b := by
    unfold actKeyLe
    rcases lt_trichotomy a.target_time b.target_time with h | h | h
    · exact Or.inl (Or.inl h)
    · rcases Nat.le_total a.id b.id with h2 | h2
      · exact Or.inl (Or.inr ⟨h, h2⟩)
      · exact Or.inr (Or.inr ⟨h.symm, h2⟩)
    · exact Or.inr (Or.inl h)

instance : IsTrans (ScheduledAction α) actKeyLe where
  trans a b c hab hbc := by
    unfold actKeyLe at hab hbc ⊢
    rcases hab with h1 | ⟨h1, h1i⟩ <;> rcases hbc with h2 | ⟨h2, h2i⟩
    · exact Or.inl (lt_trans h1 h2)
    · exact Or.inl (h2 ▸ h1)
    · exact Or.inl (h1 ▸ h2)
    · exact Or.inr ⟨h1.trans h2, le_trans h1i h2i⟩

/-- Insertion sort of due actions by ascending `(target_time, id)` key. -/
def sortByKey (l : List (ScheduledAction α)) : List (ScheduledAction α) :=
  List.insertionSort actKeyLe l

/-- Modelled from the spec: `drain_due(now)` "executes, in ascending
target_time order, every action whose target_time ≤ now, then removes it"
(spec section 4.1); the implementation behind
`BaseMode.check_scheduled_actions` is missing from the sources. Returns
the due actions in execution order together with the remaining queue. -/
def DelayedActionQueue.drain_due (q : DelayedActionQueue α) (now : Rat) :
    List (ScheduledAction α) × DelayedActionQueue α :=
  (sortByKey (q.pending.filter (fun a => a.target_time ≤ now)),
    { q with pending := q.pending.filter (fun a => ¬ a.target_time ≤ now) })

/-- Modelled from the spec: `cancel_all() -> count` removes all pending
actions without executing them (spec section 4.1). -/
def DelayedActionQueue.cancel_all (q : DelayedActionQueue α) :
    Nat × DelayedActionQueue α :=
  (q.pending.length, { q with pending := [] })

/-! ## BaseMode.perform_action (base_mode.py lines 201-229) -/

/-- Servo positions reachable through `Servo.to_top` / `to_bottom` /
`to_midpoint`. -/
inductive ServoPos where
  | top
  | bottom
  | midpoint
deriving DecidableEq, Repr

/-- Hardware-facing state a mode manipulates during an action sequence:
LED brightness level, servo position, number of WAV plays issued,
accumulated blocking time spent in `time.sleep` on the tick path, and the
mode's delayed-action queue (`Nat` payloads stand for callbacks). -/
structure HwState where
  ledLevel : Rat
  servoPos : ServoPos
  wavPlays : Nat
  blockedSeconds : Rat
  queue : DelayedActionQueue Nat
deriving DecidableEq, Repr

/-- `Leds.fade_in`: eyes lit. -/
def ledsFadeIn (s : HwState) : HwState := { s with ledLevel := 1 }

/-- `Leds.fade_out`: eyes off. -/
def ledsFadeOut (s : HwState) : HwState := { s with ledLevel := 0 }

/-- `Servo.to_top`. -/
def servoToTop (s : HwState) : HwState := { s with servoPos := ServoPos.top }

/-- `Servo.to_bottom`. -/
def servoToBottom (s : HwState) : HwState := { s with servoPos := ServoPos.bottom }

/-- `Servo.to_midpoint`. -/
def servoToMidpoint (s : HwState) : HwState := { s with servoPos := ServoPos.midpoint }

/-- `Amplifier.play_wav`. -/
def playWav (s : HwState) : HwState := { s with wavPlays := s.wavPlays + 1 }

/-- `time.sleep(d)` executed synchronously on the tick path. -/
def sleepFor (d : Rat) (s : HwState) : HwState :=
  { s with blockedSeconds := s.blockedSeconds + d }

/-- Embedding of `BaseMode.perform_action` (base_mode.py lines 201-229):
`leds.fade_in()`; `servo.to_top()`; `amplifier.play_wav()`;
`time.sleep(0.5)`; `servo.to_bottom()`; `amplifier.play_wav()`;
`time.sleep(0.5)`; `servo.to_midpoint()`; `leds.fade_out()` — executed
synchronously, in this order. -/
def perform_action (s : HwState) : HwState :=
  ledsFadeOut (servoToMidpoint (sleepFor (1/2) (playWav (servoToBottom
    (sleepFor (1/2) (playWav (servoToTop (ledsFadeIn s))))))))

/-- The individual steps of `BaseMode.perform_action` as an effect trace:
which hardware call or sleep each line performs. `scheduled` marks an
action placed in the delayed-action queue; `perform_action` contains none. -/
inductive HwStep where
  | fadeIn
  | fadeOut
  | toTop
  | toBottom
  | toMidpoint
  | wav
  | sleep (seconds : Rat)
  | scheduled (delay : Rat) (label : String)
deriving DecidableEq, Repr

/-- True exactly on steps that enqueue a delayed action. -/
def isScheduledStep : HwStep → Bool
  | HwStep.scheduled _ _ => true
  | _ => false

/-- The straight-line trace of `BaseMode.perform_action`, line by line
(base_mode.py lines 211-227). -/
def perform_action_trace : List HwStep :=
  [HwStep.fadeIn, HwStep.toTop, HwStep.wav, HwStep.sleep (1/2),
   HwStep.toBottom, HwStep.wav, HwStep.sleep (1/2),
   HwStep.toMidpoint, HwStep.fadeOut]

/-! ## RandomMode (random_mode.py) and the inherited run loop trigger -/

/-- Embedding of the variance validation in `RandomMode.mode_init`
(random_mode.py lines 39-42): a configured variance outside `[0, 1]` is
replaced by the default `0.25`. -/
def validate_variance (v : Rat) : Rat :=
  if ¬ (0 ≤ v ∧ v ≤ 1) then 1/4 else v

/-- Embedding of `RandomMode.get_next_interval` (random_mode.py lines
54-81): `random.uniform(min_interval, max_interval)` with
`min_interval = action_interval * (1 - variance)` and
`max_interval = action_interval * (1 + variance)`. The uniform draw is
modelled by a sample parameter `u ∈ [0, 1]` mapped affinely onto the
interval. -/
def get_next_interval (action_interval variance u : Rat) : Rat :=
  let min_interval := action_interval * (1 - variance)
  let max_interval := action_interval * (1 + variance)
  min_interval + u * (max_interval - min_interval)

/-- The per-mode state the `BaseMode.run` loop body reads when deciding
whether an action fires; `RandomMode` adds `interval_variance` and
`last_interval` but does not override `run`. -/
structure RandomModeState where
  action_interval : Rat
  last_action_time : Rat
  interval_variance : Rat
  last_interval : Option Rat
deriving DecidableEq, Repr

/-- Embedding of the action-trigger fragment of `BaseMode.run`
(base_mode.py lines 136-142), the loop `RandomMode` inherits unchanged:
an action fires when `current_time - self.last_action_time >=
self.action_interval`, and then `last_action_time` is set to
`current_time`. No other method is consulted: in particular
`get_next_interval` is not called anywhere in the sources. -/
def base_run_trigger (s : RandomModeState) (now : Rat) : Bool × RandomModeState :=
  if now - s.last_action_time ≥ s.action_interval then
    (true, { s with last_action_time := now })
  else
    (false, s)

/-! ## ModeManager (modes/mode_manager.py) -/

/-- The mode object installed by `ModeManager._create_mode_instance`:
either a plain `BaseMode` (the default / the fallback) or an instance of a
BaseMode-derived class found in an importable module. -/
inductive ModeInstance where
  | base
  | custom (moduleName : String)
deriving DecidableEq, Repr

/-- What importing a `modes.<module>` can yield: the import fails
(`ImportError`), the module imports but exposes no BaseMode-derived class,
or it imports and exposes one. The shipped package has all three kinds:
`clock_mode.py` has a class, `battery_monitor.py` and `button_test.py`
are importable but function-only, and most other names are absent. -/
inductive ModuleStatus where
  | absent
  | classless
  | hasClass
deriving DecidableEq, Repr

/-- The import environment: the status of each `modes.<module>` import.
This abstracts the interpreter's module search path over which
`_create_mode_instance` has no control. -/
def ImportEnv : Type := String → ModuleStatus

/-- Embedding of `ModeManager._create_mode_instance` (mode_manager.py lines
58-114): `"default"` returns a `BaseMode` directly; otherwise try the
module `modes.<name>_mode`, then — on `ImportError` — `modes.<name>`.
Exception routing is asymmetric, as in the source:
- a class-less `modes.<name>_mode` raises at line 80 inside the OUTER try,
  so the sibling `except Exception` (line 108) catches it and returns a
  fallback `BaseMode` for non-default names;
- a class-less `modes.<name>` raises at line 99 INSIDE the
  `except ImportError` handler (line 82); an exception raised in a handler
  is not caught by its sibling clauses, so it ESCAPES to the caller
  (`load_mode` then records `"default"`);
- when both imports fail, the inner `except ImportError` (line 101)
  returns a fallback `BaseMode` for non-default names.
The `raise` branches for `"default"` are unreachable because `"default"`
is handled before the try block. -/
def create_mode_instance (env : ImportEnv) (mode_name : String) :
    Except String ModeInstance :=
  if mode_name = "default" then Except.ok ModeInstance.base
  else
    match env (mode_name ++ "_mode") with
    | ModuleStatus.hasClass =>
        Except.ok (ModeInstance.custom (mode_name ++ "_mode"))
    | ModuleStatus.classless =>
        if mode_name ≠ "default" then Except.ok ModeInstance.base
        else Except.error "Cannot create default mode"
    | ModuleStatus.absent =>
        match env mode_name with
        | ModuleStatus.hasClass => Except.ok (ModeInstance.custom mode_name)
        | ModuleStatus.classless =>
            Except.error
              ("No BaseMode-derived class found in mode " ++ mode_name)
        | ModuleStatus.absent =>
            if mode_name ≠ "default" then Except.ok ModeInstance.base
            else Except.error "Cannot create default mode"

/-- Whether `_create_mode_instance` returns normally for a name (true) or
lets the no-class raise escape (false). -/
def creates_ok (env : ImportEnv) (name : String) : Bool :=
  match create_mode_instance env name with
  | Except.ok _ => true
  | Except.error _ => false

/-- ModeManager state: the ordered list of configured mode names, the
current mode name and the installed instance. -/
structure ModeManagerState where
  available_modes : List String
  current_mode_name : String
  current_mode_instance : Option ModeInstance
deriving DecidableEq, Repr

/-- Embedding of `ModeManager.load_mode` (mode_manager.py lines 116-152):
cleanup errors of the outgoing mode are swallowed; the new instance is
installed and `current_mode_name` is set to the REQUESTED name (no
membership validation against `available_modes`); on a creation error a
non-default name falls back to a fresh `BaseMode` under the name
`"default"`, while a failing `"default"` re-raises. Returns the new state;
an exception is an `Except.error`. -/
def load_mode (env : ImportEnv) (s : ModeManagerState) (mode_name : String) :
    Except String ModeManagerState :=
  match create_mode_instance env mode_name with
  | Except.ok inst =>
      Except.ok { s with current_mode_instance := some inst,
                         current_mode_name := mode_name }
  | Except.error e =>
      if mode_name ≠ "default" then
        Except.ok { s with current_mode_instance := some ModeInstance.base,
                           current_mode_name := "default" }
      else Except.error ("Cannot load any mode: " ++ e)

/-- Python's `str.strip()`: drop leading and trailing whitespace. -/
def strip_str (s : String) : String :=
  String.mk (((s.data.dropWhile Char.isWhitespace).reverse.dropWhile
    Char.isWhitespace).reverse)

/-- Embedding of `ModeManager._load_available_modes` (mode_manager.py lines
41-56): a missing or non-list config entry becomes `["default"]`; entries
are stripped and empty entries dropped; an empty result becomes
`["default"]`. -/
def load_available_modes (cfg : Option (List String)) : List String :=
  match cfg with
  | none => ["default"]
  | some l =>
      let cleaned := (l.map (fun m => strip_str m)).filter (fun m => m ≠ "")
      if cleaned = [] then ["default"] else cleaned

/-- Run `load_mode` for its state effect; an exception (provably
unreachable, see `create_mode_instance`) would propagate in Python and is
modelled by keeping the old state. -/
def run_load_mode (env : ImportEnv) (s : ModeManagerState) (name : String) :
    ModeManagerState :=
  match load_mode env s name with
  | Except.ok s1 => s1
  | Except.error _ => s

/-- Embedding of `ModeManager.__init__` (mode_manager.py lines 21-39):
load the available modes, take the configured mode name (default: first
available), replace it by the first available mode when it is not a member,
then `load_mode` it. `load_mode` cannot fail here (see
`create_mode_instance`), so the constructor's state is the loaded state. -/
def init_mode_manager (env : ImportEnv) (cfgMode : Option String)
    (cfgModes : Option (List String)) : ModeManagerState :=
  let avail := load_available_modes cfgModes
  let name0 := cfgMode.getD (avail.headD "default")
  let name1 := if name0 ∈ avail then name0 else avail.headD "default"
  let s0 : ModeManagerState :=
    { available_modes := avail, current_mode_name := name1,
      current_mode_instance := none }
  run_load_mode env s0 name1

/-- Python's `list.index` wrapped in `try/except ValueError` as in
`ModeManager.cycle_mode`: the index of the first occurrence, or 0 when the
name is absent. -/
def first_index_from : String → List String → Option Nat
  | _, [] => none
  | name, x :: xs =>
      if x = name then some 0 else (first_index_from name xs).map (· + 1)

/-- `list.index` with `ValueError` mapped to index 0 (mode_manager.py lines
156-159). -/
def index_or_zero (name : String) (l : List String) : Nat :=
  (first_index_from name l).getD 0

/-- Embedding of `ModeManager.cycle_mode` (mode_manager.py lines 154-166):
find the current name's first index (0 when absent), advance circularly,
and `load_mode` the entry at the next index. `load_mode` never fails for a
name drawn from the list (only `"default"` could fail, and it cannot), so
the error branch keeps the old state. -/
def cycle_mode (env : ImportEnv) (s : ModeManagerState) : ModeManagerState :=
  let current_index := index_or_zero s.current_mode_name s.available_modes
  let next_index := (current_index + 1) % s.available_modes.length
  let next_mode := s.available_modes.getD next_index ""
  run_load_mode env s next_mode

/-- The invariant claimed for the manager: the current mode name is a
member of the (nonempty) available mode list. -/
def manager_invariant (s : ModeManagerState) : Prop :=
  s.current_mode_name ∈ s.available_modes ∧ s.available_modes ≠ []

/-! ## Amplifier chime selection (lib_circuitpython/amplifier.py)

Sound files are the configured dict in insertion order, as `(filename, caw
count)` pairs. A selection entry `none` stands for a `None` slot the code
later fills with `random_wav()`. -/

/-- The fallback policies of `Amplifier._handle_fallback`. -/
inductive FallbackBehavior where
  | repeat_single
  | closest_match
  | random_fill
deriving DecidableEq, Repr

/-- Stable insertion step for the descending sort
`available_files.sort(key=lambda x: x[1], reverse=True)`: `a` is placed
before the first entry whose count is ≤ its own, so equal counts keep
their original order (Python's sort is stable). -/
def insert_desc (a : String × Nat) : List (String × Nat) → List (String × Nat)
  | [] => [a]
  | b :: rest => if b.2 ≤ a.2 then a :: b :: rest else b :: insert_desc a rest

/-- Stable descending sort by caw count (amplifier.py line 116). -/
def sort_desc_by_caws : List (String × Nat) → List (String × Nat)
  | [] => []
  | a :: rest => insert_desc a (sort_desc_by_caws rest)

/-- The inner scan of the greedy loop (amplifier.py lines 126-129): the
first file whose caw count does not exceed the remaining count — on the
descending-sorted list this is the largest fitting file. -/
def find_first_fit (remaining : Nat) : List (String × Nat) → Option (String × Nat)
  | [] => none
  | f :: rest => if f.2 ≤ remaining then some f else find_first_fit remaining rest

/-- Python's `min(available_files, key=lambda x: x[1])`: the first entry
with minimal caw count. -/
def min_by_count : List (String × Nat) → Option (String × Nat)
  | [] => none
  | x :: xs =>
      match min_by_count xs with
      | some m => if x.2 ≤ m.2 then some x else some m
      | none => some x

/-- Embedding of `Amplifier._handle_fallback` (amplifier.py lines 149-179).
In the `repeat_single` branch the code runs
`random.choice(single_caw_files)[0]` — `single_caw_files` holds filename
strings, so `[0]` is the FIRST CHARACTER of the chosen filename; the
random choice is modelled as the head of the list. (From
`_find_optimal_file_combination` this sub-branch is unreachable: the
fallback only runs when every count exceeds the remainder, hence no count
is 1.) -/
def handle_fallback (fb : FallbackBehavior) (remaining : Nat)
    (available_files : List (String × Nat)) : List (Option String) :=
  match fb with
  | FallbackBehavior.repeat_single =>
      let single_caw_files := (available_files.filter (fun p => p.2 = 1)).map (·.1)
      if single_caw_files ≠ [] then
        List.replicate remaining (some ((single_caw_files.headD "").take 1))
      else
        match min_by_count available_files with
        | some m => [some m.1]
        | none => []
  | FallbackBehavior.closest_match =>
      match min_by_count available_files with
      | some m => [some m.1]
      | none => []
  | FallbackBehavior.random_fill => List.replicate remaining none

/-- The greedy `while remaining_caws > 0` loop of
`_find_optimal_file_combination` (amplifier.py lines 122-139), with
explicit fuel. Fuel `target_caws` suffices whenever every configured caw
count is ≥ 1 (each round then strictly decreases the remainder); with a
0-caw file the Python loop does not terminate, mirrored here by fuel
exhaustion. -/
def greedy_select (fb : FallbackBehavior) (sorted_files : List (String × Nat)) :
    Nat → Nat → List (Option String)
  | 0, _ => []
  | _ + 1, 0 => []
  | fuel + 1, remaining + 1 =>
      match find_first_fit (remaining + 1) sorted_files with
      | some fc => some fc.1 :: greedy_select fb sorted_files fuel (remaining + 1 - fc.2)
      | none => handle_fallback fb (remaining + 1) sorted_files

/-- Embedding of `Amplifier._find_optimal_file_combination` (amplifier.py
lines 100-147). `fileOk` abstracts `_file_exists`; `sound_files` is the
configured dict in insertion order. A non-positive target gives `[]`; no
available file gives `target` random slots; otherwise sort descending (in
place, so the fallback also sees the sorted list), run the greedy loop,
and fall back to random slots if nothing was selected. -/
def find_optimal_file_combination (fileOk : String → Bool) (fb : FallbackBehavior)
    (sound_files : List (String × Nat)) (target_caws : Nat) : List (Option String) :=
  if target_caws = 0 then []
  else
    let available_files := sound_files.filter (fun p => fileOk p.1)
    if available_files = [] then List.replicate target_caws none
    else
      let sorted := sort_desc_by_caws available_files
      let selected := greedy_select fb sorted target_caws target_caws
      if selected = [] then List.replicate target_caws none else selected

/-- The configured caw weight of a filename (0 when not configured). -/
def caw_weight (sound_files : List (String × Nat)) (name : String) : Nat :=
  ((sound_files.find? (fun p => p.1 = name)).map (·.2)).getD 0

/-- Total configured caw weight of a selection; random slots count 0. -/
def selection_weight (sound_files : List (String × Nat))
    (sel : List (Option String)) : Nat :=
  (sel.map (fun o => match o with
    | some n => caw_weight sound_files n
    | none => 0)).sum

/-! ## ClockMode hourly chime (clock_mode.py lines 222-355) -/

/-- The callbacks `ClockMode.perform_hourly_chime` and
`ClockMode.schedule_quiet_intelligent_chime` pass to `schedule_action`. -/
inductive ChimeCallback where
  | servoTop
  | servoBottom
  | playChime (hour : Nat)
  | finishChime
  | playQuietChime (hour : Nat)
  | finishQuiet
deriving DecidableEq, Repr

/-- The ClockMode state touched by the chime path: the re-entrancy flag,
the configured hour, the delayed-action queue, and the hardware mirrors
(immediate eye flashes, amplifier volume, LED level, servo position). -/
structure ClockChimeState where
  chime_in_progress : Bool
  current_hour : Nat
  queue : DelayedActionQueue ChimeCallback
  flashes : Nat
  volume : Rat
  ledLevel : Rat
  servoPos : ServoPos
deriving DecidableEq, Repr

/-- Embedding of `ClockMode.estimate_chime_duration` (clock_mode.py lines
300-312): with configured sound files, `min(hour, 4)` files at ~2 s each,
otherwise one file per caw; floored at `hour * 0.5`. -/
def estimate_chime_duration (hasFiles : Bool) (hour : Nat) : Rat :=
  let estimated_duration : Rat :=
    if hasFiles then (min hour 4 : Nat) * 2 else (hour : Nat) * 2
  max estimated_duration (hour * (1/2))

/-- True on the callbacks that reset `chime_in_progress`
(`finish_intelligent_chime`, `finish_quiet_chimes`). -/
def clears_chime_flag : ChimeCallback → Bool
  | ChimeCallback.finishChime => true
  | ChimeCallback.finishQuiet => true
  | _ => false

/-- The `(delay, callback, label)` triples `perform_hourly_chime` feeds to
`schedule_action`, in call order. Dark conditions
(`schedule_quiet_intelligent_chime`, clock_mode.py lines 314-327) schedule
the quiet chime and its cleanup; otherwise (lines 255-280) the servo
movements for `i in range(min(hour, 6))` alternate top/bottom at
`i * chime_spacing`, then the chime sequence at 0.2 s, then the cleanup
after the estimated duration plus 1 s. -/
def chime_schedule_plan (lightOk : Bool) (chime_spacing : Rat)
    (hasFiles : Bool) (hour : Nat) : List (Rat × ChimeCallback × String) :=
  if ¬ lightOk then
    [((1/10 : Rat), (ChimeCallback.playQuietChime hour, "quiet_intelligent_chime")),
     (estimate_chime_duration hasFiles hour + 1/2,
       (ChimeCallback.finishQuiet, "quiet_cleanup"))]
  else
    ((List.range (min hour 6)).map (fun (i : Nat) =>
      ((i : Rat) * chime_spacing,
        (if i % 2 = 0 then ChimeCallback.servoTop else ChimeCallback.servoBottom,
         "movement_" ++ toString (i + 1) ++ (if i % 2 = 0 then "_top" else "_bottom")))))
    ++ [((1/5 : Rat), (ChimeCallback.playChime hour, "intelligent_chime_sequence")),
        (estimate_chime_duration hasFiles hour + 1,
          (ChimeCallback.finishChime, "chime_cleanup"))]

/-- Enqueue a plan through `schedule_action`, one call at a time. -/
def enqueue_plan (now : Rat) (q : DelayedActionQueue ChimeCallback) :
    List (Rat × ChimeCallback × String) → DelayedActionQueue ChimeCallback
  | [] => q
  | (delay, cb, label) :: rest =>
      enqueue_plan now (q.schedule now delay cb label).2 rest

/-- Embedding of `ClockMode.perform_hourly_chime` (clock_mode.py lines
222-282). If a chime is already in progress, return immediately with the
state untouched. Otherwise mark the chime in progress; on critical battery
flash three times and reset the flag inline (no sequence starts); on dark
conditions schedule the quiet plan; otherwise set the chime volume, fade
the LEDs in and schedule the full plan. -/
def perform_hourly_chime (critical lightOk : Bool)
    (chime_volume chime_spacing now : Rat) (hasFiles : Bool)
    (s : ClockChimeState) : ClockChimeState :=
  if s.chime_in_progress then s
  else if critical then
    { s with flashes := s.flashes + 3, chime_in_progress := false }
  else if ¬ lightOk then
    { s with chime_in_progress := true,
             queue := enqueue_plan now s.queue
               (chime_schedule_plan false chime_spacing hasFiles s.current_hour) }
  else
    { s with chime_in_progress := true,
             volume := chime_volume,
             ledLevel := 1,
             queue := enqueue_plan now s.queue
               (chime_schedule_plan true chime_spacing hasFiles s.current_hour) }

/-- Executing a drained chime callback (clock_mode.py lines 284-355):
`finish_intelligent_chime` recentres the servo, fades the LEDs out,
restores the configured base volume and clears `chime_in_progress`;
`finish_quiet_chimes` restores the volume and clears the flag; the other
callbacks drive the servo or play audio. -/
def run_chime_callback (base_volume : Rat) :
    ChimeCallback → ClockChimeState → ClockChimeState
  | ChimeCallback.servoTop, s => { s with servoPos := ServoPos.top }
  | ChimeCallback.servoBottom, s => { s with servoPos := ServoPos.bottom }
  | ChimeCallback.playChime _, s => s
  | ChimeCallback.playQuietChime _, s => s
  | ChimeCallback.finishChime, s =>
      { s with servoPos := ServoPos.midpoint, ledLevel := 0,
               volume := base_volume, chime_in_progress := false }
  | ChimeCallback.finishQuiet, s =>
      { s with volume := base_volume, chime_in_progress := false }

/-! ## Concrete instances used by witnesses and counterexamples -/

/-- A filesystem on which every configured sound file exists. -/
def allFilesOk : String → Bool := fun _ => true

/-- An import environment in which no `modes.<name>` module exists at
all. -/
def envNone : ImportEnv := fun _ => ModuleStatus.absent

/-- The import environment of the shipped `modes/` package restricted to
the class-less modules: `battery_monitor.py` and `button_test.py` import
cleanly but contain only functions (no BaseMode-derived class), and no
`battery_monitor_mode.py` / `button_test_mode.py` exists, so resolving
them hits the escaping no-class raise (mode_manager.py line 99). -/
def envShipped : ImportEnv := fun m =>
  if m = "battery_monitor" ∨ m = "button_test" then ModuleStatus.classless
  else ModuleStatus.absent

/-- A manager constructed with `available_modes = ["default"]`. -/
def mgrDefaultOnly : ModeManagerState :=
  init_mode_manager envNone none (some ["default"])

/-- A manager constructed with the duplicate-bearing configuration
`available_modes = ["a", "b", "a"]` and starting mode `"b"`. -/
def mgrDup : ModeManagerState :=
  init_mode_manager envNone (some "b") (some ["a", "b", "a"])

/-- A manager constructed with the duplicate-free configuration
`available_modes = ["a", "b"]` and starting mode `"b"`. -/
def mgrPair : ModeManagerState :=
  init_mode_manager envNone (some "b") (some ["a", "b"])

/-- A manager constructed under `envShipped` with the class-less module as
the only configured mode. -/
def mgrMonitorOnly : ModeManagerState :=
  init_mode_manager envShipped none (some ["battery_monitor"])

/-- A manager constructed under `envShipped` with the duplicate-free
configuration `["clock", "battery_monitor", "random"]` and starting mode
`"clock"`. -/
def mgrShippedTriple : ModeManagerState :=
  init_mode_manager envShipped (some "clock")
    (some ["clock", "battery_monitor", "random"])

/-- An idle hardware state: eyes off, servo centred, nothing played,
no blocking time accrued, empty queue. -/
def hw0 : HwState :=
  { ledLevel := 0, servoPos := ServoPos.midpoint, wavPlays := 0,
    blockedSeconds := 0, queue := DelayedActionQueue.empty Nat }

/-- An idle clock state at hour 5 with no chime in progress. -/
def clock0 : ClockChimeState :=
  { chime_in_progress := false, current_hour := 5,
    queue := DelayedActionQueue.empty ChimeCallback, flashes := 0,
    volume := 3/5, ledLevel := 0, servoPos := ServoPos.midpoint }

/-! # Theorems -/

/-- C3: whenever an action trigger fires, `check_conditions_and_act`
dispatches to exactly one of the three variants (it is a total function
into `ActionChoice`), following the strict priority order: an enabled
critical battery selects the battery warning even when it is also dark;
otherwise darkness selects the night action; otherwise the full action
runs. -/
theorem C3_condition_priority_dispatch (s : SensorState) :
    (s.batteryEnabled = true → s.batteryCritical = true →
      check_conditions_and_act s = ActionChoice.battery_warning) ∧
    (¬ (s.batteryEnabled = true ∧ s.batteryCritical = true) →
      s.lightSufficient = false →
      check_conditions_and_act s = ActionChoice.night_action) ∧
    (¬ (s.batteryEnabled = true ∧ s.batteryCritical = true) →
      s.lightSufficient = true →
      check_conditions_and_act s = ActionChoice.full_action) := by
  rcases s with ⟨be, bc, ls⟩
  cases be <;> cases bc <;> cases ls <;>
    refine ⟨?_, ?_, ?_⟩ <;> decide

/-- Witness for C3 at the contested state: battery critical AND dark. -/
theorem C3_condition_priority_dispatch_witness :
    check_conditions_and_act ⟨true, true, false⟩ = ActionChoice.battery_warning :=
  (C3_condition_priority_dispatch ⟨true, true, false⟩).1 rfl rfl

/-- Auxiliary: one button press keeps the hour in `[1, 12]`. -/
theorem advance_hour_bounds {h : Nat} (h1 : 1 ≤ h) (h2 : h ≤ 12) :
    1 ≤ advance_hour h ∧ advance_hour h ≤ 12 := by
  unfold advance_hour; split <;> omega

/-- C9: in ClockMode each short button press advances `current_hour` by
exactly one, wraps from 12 back to 1, and starting from the initial hour
12 every sequence of presses keeps the hour in `[1, 12]`. -/
theorem C9_hour_advances_and_stays_in_range :
    clockInitialHour = 12 ∧
    (∀ h : Nat, 1 ≤ h → h ≤ 11 → advance_hour h = h + 1) ∧
    advance_hour 12 = 1 ∧
    (∀ n : Nat, 1 ≤ advance_hour^[n] clockInitialHour ∧
      advance_hour^[n] clockInitialHour ≤ 12) := by
  refine ⟨rfl, ?_, by decide, ?_⟩
  · intro h h1 h2; unfold advance_hour; split <;> omega
  · intro n
    induction n with
    | zero => simp [clockInitialHour]
    | succ k ih =>
        rw [Function.iterate_succ_apply']
        exact advance_hour_bounds ih.1 ih.2

/-- Witness for C9: a press at hour 5 gives hour 6. -/
theorem C9_hour_advances_witness : advance_hour 5 = 6 :=
  (C9_hour_advances_and_stays_in_range).2.1 5 (by norm_num) (by norm_num)

/-- C5 (documenting the code bug): the inherited `BaseMode.run` trigger
fires purely on the FIXED `action_interval` — it is unchanged by the
variance and last-interval state `RandomMode` adds, and `get_next_interval`
is called nowhere, so action intervals are never resampled. The
sampling function itself does map `[0, 1]` onto
`[base*(1-variance), base*(1+variance)]` (shown at the endpoints and
midpoint for base 3600, variance 0.25), and `mode_init` does replace an
out-of-range variance by 0.25. -/
theorem C5_interval_never_resampled :
    (∀ (s : RandomModeState) (now v : Rat) (li : Option Rat),
      (base_run_trigger { s with interval_variance := v, last_interval := li } now).1 =
        (base_run_trigger s now).1) ∧
    (∀ (s : RandomModeState) (now : Rat),
      (base_run_trigger s now).1 = decide (s.action_interval ≤ now - s.last_action_time)) ∧
    validate_variance (3/2) = 1/4 ∧
    validate_variance (-(1/2)) = 1/4 ∧
    validate_variance (1/2) = 1/2 ∧
    get_next_interval 3600 (1/4) 0 = 3600 * (1 - 1/4) ∧
    get_next_interval 3600 (1/4) 1 = 3600 * (1 + 1/4) ∧
    get_next_interval 3600 (1/4) (1/2) = 3600 := by
  refine ⟨?_, ?_, by norm_num [validate_variance], by norm_num [validate_variance],
    by norm_num [validate_variance], by norm_num [get_next_interval],
    by norm_num [get_next_interval], by norm_num [get_next_interval]⟩
  · intro s now v li
    by_cases h : s.action_interval ≤ now - s.last_action_time <;>
      simp [base_run_trigger, h]
  · intro s now
    by_cases h : s.action_interval ≤ now - s.last_action_time <;>
      simp [base_run_trigger, h]

/-- C2 counterexample: executed from the idle state, the default
`perform_action` schedules NOTHING into the delayed-action queue and DOES
block the tick path (one full second of `time.sleep`); its line-by-line
trace contains a blocking sleep step and no scheduled step. This refutes
the claim that every hardware step is expressed as a relatively-offset
scheduled action with no blocking sleep. -/
theorem C2_counterexample :
    (perform_action hw0).queue.pending.length = hw0.queue.pending.length ∧
    ¬ (perform_action hw0).blockedSeconds = hw0.blockedSeconds ∧
    HwStep.sleep (1/2) ∈ perform_action_trace ∧
    perform_action_trace.countP isScheduledStep = 0 := by
  refine ⟨rfl, ?_, by simp [perform_action_trace], by decide⟩
  show ¬ hw0.blockedSeconds + 1/2 + 1/2 = hw0.blockedSeconds
  norm_num [hw0]

/-- C2 amended: the default `perform_action` executes its five hardware
steps synchronously — fade-in, move-to-top with audio, a 0.5 s blocking
sleep, move-to-bottom with audio, another 0.5 s blocking sleep, return to
midpoint and fade-out — leaving the delayed-action queue untouched and
adding exactly one second of blocking time to the tick path; only
ClockMode's chime path uses relatively-offset scheduled actions. -/
theorem C2_amended_synchronous_blocking (s : HwState) :
    (perform_action s).queue = s.queue ∧
    (perform_action s).blockedSeconds = s.blockedSeconds + 1 ∧
    (perform_action s).wavPlays = s.wavPlays + 2 ∧
    (perform_action s).servoPos = ServoPos.midpoint ∧
    (perform_action s).ledLevel = 0 ∧
    perform_action_trace.countP isScheduledStep = 0 ∧
    HwStep.sleep (1/2) ∈ perform_action_trace := by
  refine ⟨rfl, ?_, rfl, rfl, rfl, by decide, by simp [perform_action_trace]⟩
  show s.blockedSeconds + 1/2 + 1/2 = s.blockedSeconds + 1
  ring

/-- Auxiliary: `_create_mode_instance` either returns normally, or lets
the no-class raise escape — the latter exactly for a non-default name
whose `modes.<name>_mode` import fails while `modes.<name>` imports
class-less (the raise at mode_manager.py line 99, inside the
`except ImportError` handler). -/
theorem create_mode_instance_cases (env : ImportEnv) (name : String) :
    (∃ inst, create_mode_instance env name = Except.ok inst) ∨
    ((∃ e, create_mode_instance env name = Except.error e) ∧
      name ≠ "default" ∧ env (name ++ "_mode") = ModuleStatus.absent ∧
      env name = ModuleStatus.classless) := by
  by_cases h : name = "default"
  · exact Or.inl ⟨ModeInstance.base, by unfold create_mode_instance; simp [h]⟩
  · cases h1 : env (name ++ "_mode") with
    | hasClass =>
        exact Or.inl ⟨ModeInstance.custom (name ++ "_mode"),
          by unfold create_mode_instance; simp [h, h1]⟩
    | classless =>
        exact Or.inl ⟨ModeInstance.base,
          by unfold create_mode_instance; simp [h, h1]⟩
    | absent =>
        cases h2 : env name with
        | hasClass =>
            exact Or.inl ⟨ModeInstance.custom name,
              by unfold create_mode_instance; simp [h, h1, h2]⟩
        | classless =>
            exact Or.inr ⟨⟨"No BaseMode-derived class found in mode " ++ name,
              by unfold create_mode_instance; simp [h, h1, h2]⟩, h, rfl, rfl⟩
        | absent =>
            exact Or.inl ⟨ModeInstance.base,
              by unfold create_mode_instance; simp [h, h1, h2]⟩

/-- Auxiliary: a true `creates_ok` flag yields the instance. -/
theorem creates_ok_exists (env : ImportEnv) (name : String)
    (h : creates_ok env name = true) :
    ∃ inst, create_mode_instance env name = Except.ok inst := by
  unfold creates_ok at h
  cases hx : create_mode_instance env name with
  | ok inst => exact ⟨inst, rfl⟩
  | error e => rw [hx] at h; simp at h

/-- Auxiliary: `load_mode` records the requested name when
`_create_mode_instance` returns normally. -/
theorem load_mode_ok (env : ImportEnv) (s : ModeManagerState) (name : String)
    (inst : ModeInstance)
    (h : create_mode_instance env name = Except.ok inst) :
    load_mode env s name =
      Except.ok { s with current_mode_instance := some inst,
                         current_mode_name := name } := by
  unfold load_mode
  rw [h]

/-- Auxiliary: when the no-class raise escapes `_create_mode_instance`,
`load_mode` of a non-default name records `"default"` with a fresh
`BaseMode`. -/
theorem load_mode_fallback (env : ImportEnv) (s : ModeManagerState)
    (name : String) (e : String)
    (h : create_mode_instance env name = Except.error e)
    (hne : name ≠ "default") :
    load_mode env s name =
      Except.ok { s with current_mode_instance := some ModeInstance.base,
                         current_mode_name := "default" } := by
  unfold load_mode
  rw [h]
  simp [hne]

/-- Auxiliary: `load_mode` never raises: it records either the requested
name or `"default"`, always with a usable instance. -/
theorem load_mode_cases (env : ImportEnv) (s : ModeManagerState)
    (name : String) :
    (∃ inst, load_mode env s name =
      Except.ok { s with current_mode_instance := some inst,
                         current_mode_name := name }) ∨
    load_mode env s name =
      Except.ok { s with current_mode_instance := some ModeInstance.base,
                         current_mode_name := "default" } := by
  rcases create_mode_instance_cases env name with ⟨inst, h⟩ | ⟨⟨e, h⟩, hne, _, _⟩
  · exact Or.inl ⟨inst, load_mode_ok env s name inst h⟩
  · exact Or.inr (load_mode_fallback env s name e h hne)

/-- Auxiliary: `load_mode` always succeeds with some state. -/
theorem load_mode_total (env : ImportEnv) (s : ModeManagerState)
    (name : String) : ∃ s2, load_mode env s name = Except.ok s2 := by
  rcases load_mode_cases env s name with ⟨inst, h⟩ | h
  · exact ⟨_, h⟩
  · exact ⟨_, h⟩

/-- C7: a mode name that resolves to no mode implementation (neither
`modes.<name>_mode` nor `modes.<name>` exposes a BaseMode-derived class)
does not raise: `load_mode` installs a usable default `BaseMode` instance
and reports success — recording the requested name on the caught fallback
paths, or `"default"` when the class-less plain module makes the no-class
raise escape `_create_mode_instance`; and no `load_mode` call can raise at
all, because the default `BaseMode` is constructed unconditionally. -/
theorem C7_unknown_mode_falls_back (env : ImportEnv) (s : ModeManagerState)
    (name : String) (h1 : env (name ++ "_mode") ≠ ModuleStatus.hasClass)
    (h2 : env name ≠ ModuleStatus.hasClass) :
    (load_mode env s name =
      Except.ok { s with current_mode_instance := some ModeInstance.base,
                         current_mode_name := name } ∨
     load_mode env s name =
      Except.ok { s with current_mode_instance := some ModeInstance.base,
                         current_mode_name := "default" }) ∧
    ∀ name2 : String, ∃ s2, load_mode env s name2 = Except.ok s2 := by
  constructor
  · by_cases h : name = "default"
    · subst h
      exact Or.inl (load_mode_ok env s "default" ModeInstance.base
        (by unfold create_mode_instance; simp))
    · cases hm : env (name ++ "_mode") with
      | hasClass => exact absurd hm h1
      | classless =>
          exact Or.inl (load_mode_ok env s name ModeInstance.base
            (by unfold create_mode_instance; simp [h, hm]))
      | absent =>
          cases hp : env name with
          | hasClass => exact absurd hp h2
          | classless =>
              exact Or.inr (load_mode_fallback env s name
                ("No BaseMode-derived class found in mode " ++ name)
                (by unfold create_mode_instance; simp [h, hm, hp]) h)
          | absent =>
              exact Or.inl (load_mode_ok env s name ModeInstance.base
                (by unfold create_mode_instance; simp [h, hm, hp]))
  · intro name2
    exact load_mode_total env s name2

/-- Witness for C7: loading the absent name `"bogus"` on the default-only
manager succeeds with a `BaseMode` instance. -/
theorem C7_unknown_mode_falls_back_witness :
    load_mode envNone mgrDefaultOnly "bogus" =
      Except.ok { mgrDefaultOnly with
                    current_mode_instance := some ModeInstance.base,
                    current_mode_name := "bogus" } ∨
    load_mode envNone mgrDefaultOnly "bogus" =
      Except.ok { mgrDefaultOnly with
                    current_mode_instance := some ModeInstance.base,
                    current_mode_name := "default" } :=
  (C7_unknown_mode_falls_back envNone mgrDefaultOnly "bogus" (by decide)
    (by decide)).1

/-- C6 counterexample: two violations. (a) On a manager whose
`available_modes` is `["default"]`, `load_mode "clock"` completes
successfully but records `current_mode_name = "clock"`, not a member —
`load_mode` performs no membership validation. (b) Constructing with
`available_modes = ["battery_monitor"]` (the shipped class-less module)
takes the escaping no-class raise and records `"default"`, also not a
member — so even construction can break the invariant. -/
theorem C6_counterexample :
    (mgrDefaultOnly.available_modes = ["default"] ∧
     mgrDefaultOnly.current_mode_name ∈ mgrDefaultOnly.available_modes ∧
     load_mode envNone mgrDefaultOnly "clock" =
       Except.ok { mgrDefaultOnly with
                     current_mode_instance := some ModeInstance.base,
                     current_mode_name := "clock" } ∧
     ¬ "clock" ∈ mgrDefaultOnly.available_modes) ∧
    (mgrMonitorOnly.available_modes = ["battery_monitor"] ∧
     mgrMonitorOnly.current_mode_name = "default" ∧
     ¬ mgrMonitorOnly.current_mode_name ∈ mgrMonitorOnly.available_modes) := by
  refine ⟨⟨by decide, by decide, ?_, by decide⟩, by decide, by decide, by decide⟩
  rfl

/-- Auxiliary: `_load_available_modes` never returns an empty list. -/
theorem load_available_modes_ne_nil (cfg : Option (List String)) :
    load_available_modes cfg ≠ [] := by
  unfold load_available_modes
  cases cfg with
  | none => simp
  | some l =>
      dsimp only
      split <;> simp_all

/-- Auxiliary: the default head of a nonempty list is a member. -/
theorem headD_mem {l : List String} (h : l ≠ []) (d : String) :
    l.headD d ∈ l := by
  cases l with
  | nil => exact absurd rfl h
  | cons a t => simp [List.headD]

/-- Auxiliary: running `load_mode` installs an instance and records either
the requested name or `"default"`; the other fields never change. -/
theorem run_load_mode_cases (env : ImportEnv) (s : ModeManagerState)
    (name : String) :
    (∃ inst, run_load_mode env s name =
      { s with current_mode_instance := some inst,
               current_mode_name := name }) ∨
    run_load_mode env s name =
      { s with current_mode_instance := some ModeInstance.base,
               current_mode_name := "default" } := by
  rcases load_mode_cases env s name with ⟨inst, h⟩ | h
  · exact Or.inl ⟨inst, by unfold run_load_mode; rw [h]⟩
  · exact Or.inr (by unfold run_load_mode; rw [h])

/-- Auxiliary: when `_create_mode_instance` returns normally for the name,
running `load_mode` records the requested name. -/
theorem run_load_mode_fields (env : ImportEnv) (s : ModeManagerState)
    (name : String) (hok : creates_ok env name = true) :
    ∃ inst, run_load_mode env s name =
      { s with current_mode_instance := some inst,
               current_mode_name := name } := by
  obtain ⟨inst, h⟩ := creates_ok_exists env name hok
  exact ⟨inst, by unfold run_load_mode; rw [load_mode_ok env s name inst h]⟩

/-- C6 amended: PROVIDED `"default"` is a member of `available_modes`, the
membership invariant holds after construction, after every `cycle_mode`,
and after `load_mode` with a member name — every load records either the
requested name or `"default"`. Without that proviso the escaping no-class
raise can record the non-member `"default"` even during construction, and
`load_mode` with an arbitrary name records it unvalidated (see the
counterexample), so the original universally-quantified claim fails. -/
theorem C6_amended_invariant (env : ImportEnv) (cfgMode : Option String)
    (cfgModes : Option (List String)) :
    ("default" ∈ load_available_modes cfgModes →
      manager_invariant (init_mode_manager env cfgMode cfgModes)) ∧
    (∀ s : ModeManagerState, manager_invariant s →
      "default" ∈ s.available_modes →
      manager_invariant (cycle_mode env s)) ∧
    (∀ (s s2 : ModeManagerState) (name : String), manager_invariant s →
      "default" ∈ s.available_modes → name ∈ s.available_modes →
      load_mode env s name = Except.ok s2 → manager_invariant s2) := by
  refine ⟨?_, ?_, ?_⟩
  · intro hdef
    have hne := load_available_modes_ne_nil cfgModes
    have hmem1 : (if cfgMode.getD ((load_available_modes cfgModes).headD
          "default") ∈ load_available_modes cfgModes then
        cfgMode.getD ((load_available_modes cfgModes).headD "default")
      else (load_available_modes cfgModes).headD "default") ∈
        load_available_modes cfgModes := by
      by_cases hm : cfgMode.getD ((load_available_modes cfgModes).headD
          "default") ∈ load_available_modes cfgModes
      · rw [if_pos hm]; exact hm
      · rw [if_neg hm]
        exact headD_mem hne "default"
    unfold init_mode_manager
    dsimp only
    rcases run_load_mode_cases env
      { available_modes := load_available_modes cfgModes,
        current_mode_name :=
          if cfgMode.getD ((load_available_modes cfgModes).headD "default") ∈
              load_available_modes cfgModes then
            cfgMode.getD ((load_available_modes cfgModes).headD "default")
          else (load_available_modes cfgModes).headD "default",
        current_mode_instance := none }
      (if cfgMode.getD ((load_available_modes cfgModes).headD "default") ∈
          load_available_modes cfgModes then
        cfgMode.getD ((load_available_modes cfgModes).headD "default")
      else (load_available_modes cfgModes).headD "default") with
      ⟨inst, h⟩ | h
    · rw [h]
      exact ⟨hmem1, hne⟩
    · rw [h]
      exact ⟨hdef, hne⟩
  · intro s hs hdef
    unfold cycle_mode
    dsimp only
    have hlen : 0 < s.available_modes.length := List.length_pos.mpr hs.2
    have hlt : (index_or_zero s.current_mode_name s.available_modes + 1) %
        s.available_modes.length < s.available_modes.length :=
      Nat.mod_lt _ hlen
    have hnext : s.available_modes.getD
        ((index_or_zero s.current_mode_name s.available_modes + 1) %
          s.available_modes.length) "" ∈ s.available_modes := by
      rw [List.getD_eq_getElem _ _ hlt]
      exact List.getElem_mem hlt
    rcases run_load_mode_cases env s
      (s.available_modes.getD
        ((index_or_zero s.current_mode_name s.available_modes + 1) %
          s.available_modes.length) "") with ⟨inst, h⟩ | h
    · rw [h]
      exact ⟨hnext, hs.2⟩
    · rw [h]
      exact ⟨hdef, hs.2⟩
  · intro s s2 name hs hdef hmem hload
    rcases load_mode_cases env s name with ⟨inst, h⟩ | h
    · rw [h] at hload
      injection hload with hload
      subst hload
      exact ⟨hmem, hs.2⟩
    · rw [h] at hload
      injection hload with hload
      subst hload
      exact ⟨hdef, hs.2⟩

/-- Witness for C6 amended: cycling the default-only manager preserves the
invariant. -/
theorem C6_amended_invariant_witness :
    manager_invariant (cycle_mode envNone mgrDefaultOnly) :=
  (C6_amended_invariant envNone none (some ["default"])).2.1 mgrDefaultOnly
    ⟨by decide, by decide⟩ (by decide)

/-- C8 counterexample: two violations. (a) With the duplicate-bearing
configuration `["a", "b", "a"]` and starting mode `"b"` (a member), three
`cycle_mode` calls (N = length) end at `"a"` — `list.index` finds the
FIRST occurrence of the current name. (b) Even duplicate-free, under the
shipped modules `["clock", "battery_monitor", "random"]` starting at
`"clock"`, the escaping no-class raise of `battery_monitor` rewrites the
name to the non-member `"default"` mid-cycle and three calls end at
`"default"`, not back at `"clock"`. -/
theorem C8_counterexample :
    (mgrDup.available_modes = ["a", "b", "a"] ∧
     mgrDup.current_mode_name = "b" ∧
     mgrDup.current_mode_name ∈ mgrDup.available_modes ∧
     ((fun st => cycle_mode envNone st)^[3] mgrDup).current_mode_name = "a" ∧
     mgrDup.available_modes.length = 3 ∧
     ¬ ((fun st => cycle_mode envNone st)^[3] mgrDup).current_mode_name =
         mgrDup.current_mode_name) ∧
    (mgrShippedTriple.available_modes =
        ["clock", "battery_monitor", "random"] ∧
     mgrShippedTriple.available_modes.Nodup ∧
     mgrShippedTriple.current_mode_name = "clock" ∧
     mgrShippedTriple.available_modes.length = 3 ∧
     ¬ ((fun st => cycle_mode envShipped st)^[3]
         mgrShippedTriple).current_mode_name =
         mgrShippedTriple.current_mode_name) := by
  exact ⟨⟨by decide, by decide, by decide, by decide, by decide, by decide⟩,
    by decide, by decide, by decide, by decide, by decide⟩

/-- Auxiliary: in a duplicate-free list, `list.index` of the i-th element
is i. -/
theorem first_index_from_get :
    ∀ (l : List String) (i : Nat) (h : i < l.length), l.Nodup →
      first_index_from (l.get ⟨i, h⟩) l = some i := by
  intro l
  induction l with
  | nil => intro i h; simp at h
  | cons a t ih =>
      intro i h nd
      cases i with
      | zero => simp [first_index_from]
      | succ k =>
          have hk : k < t.length := by simpa using h
          have hget : (a :: t).get ⟨k + 1, h⟩ = t.get ⟨k, hk⟩ := rfl
          have hne : ¬ a = t.get ⟨k, hk⟩ := by
            intro e
            exact (List.nodup_cons.mp nd).1 (e ▸ List.get_mem t k hk)
          rw [hget]
          show (if a = t.get ⟨k, hk⟩ then some 0
            else (first_index_from (t.get ⟨k, hk⟩) t).map (· + 1)) = some (k + 1)
          rw [if_neg hne, ih k hk (List.nodup_cons.mp nd).2]
          rfl

/-- Auxiliary: `index_or_zero` of the i-th element of a duplicate-free
list is i. -/
theorem index_or_zero_get (l : List String) (i : Nat) (h : i < l.length)
    (nd : l.Nodup) : index_or_zero (l.get ⟨i, h⟩) l = i := by
  unfold index_or_zero
  rw [first_index_from_get l i h nd]
  rfl

/-- Auxiliary: one `cycle_mode` step from the i-th entry of a
duplicate-free list whose every entry constructs normally lands on the
(i+1 mod N)-th entry and leaves `available_modes` unchanged. -/
theorem cycle_mode_step (env : ImportEnv) (s : ModeManagerState) (i : Nat)
    (h : i < s.available_modes.length) (nd : s.available_modes.Nodup)
    (hclean : ∀ m ∈ s.available_modes, creates_ok env m = true)
    (hc : s.current_mode_name = s.available_modes.get ⟨i, h⟩) :
    (cycle_mode env s).available_modes = s.available_modes ∧
    (cycle_mode env s).current_mode_name =
      s.available_modes.getD ((i + 1) % s.available_modes.length) "" := by
  unfold cycle_mode
  dsimp only
  have hlen : 0 < s.available_modes.length := Nat.pos_of_ne_zero (by omega)
  have hlt : (index_or_zero s.current_mode_name s.available_modes + 1) %
      s.available_modes.length < s.available_modes.length :=
    Nat.mod_lt _ hlen
  have hnext : s.available_modes.getD
      ((index_or_zero s.current_mode_name s.available_modes + 1) %
        s.available_modes.length) "" ∈ s.available_modes := by
    rw [List.getD_eq_getElem _ _ hlt]
    exact List.getElem_mem hlt
  obtain ⟨inst, hrun⟩ := run_load_mode_fields env s
    (s.available_modes.getD
      ((index_or_zero s.current_mode_name s.available_modes + 1) %
        s.available_modes.length) "") (hclean _ hnext)
  rw [hrun]
  refine ⟨rfl, ?_⟩
  rw [hc, index_or_zero_get s.available_modes i h nd]

/-- Auxiliary: k `cycle_mode` steps from the i-th entry of a duplicate-free
list whose every entry constructs normally land on the (i+k mod N)-th
entry. -/
theorem cycle_mode_iterate (env : ImportEnv) (s : ModeManagerState)
    (nd : s.available_modes.Nodup) (i : Nat)
    (h : i < s.available_modes.length)
    (hclean : ∀ m ∈ s.available_modes, creates_ok env m = true)
    (hc : s.current_mode_name = s.available_modes.get ⟨i, h⟩) :
    ∀ k : Nat,
      ((fun st => cycle_mode env st)^[k] s).available_modes =
        s.available_modes ∧
      ((fun st => cycle_mode env st)^[k] s).current_mode_name =
        s.available_modes.getD ((i + k) % s.available_modes.length) "" := by
  have hlen : 0 < s.available_modes.length := Nat.pos_of_ne_zero (by omega)
  intro k
  induction k with
  | zero =>
      refine ⟨rfl, ?_⟩
      simp only [Function.iterate_zero, id]
      rw [Nat.add_zero, Nat.mod_eq_of_lt h, List.getD_eq_getElem _ _ h]
      rw [hc]
      simp [List.get_eq_getElem]
  | succ k ih =>
      rw [Function.iterate_succ_apply']
      have hj : (i + k) % s.available_modes.length <
          ((fun st => cycle_mode env st)^[k] s).available_modes.length := by
        rw [ih.1]; exact Nat.mod_lt _ hlen
      have hnd : ((fun st => cycle_mode env st)^[k] s).available_modes.Nodup := by
        rw [ih.1]; exact nd
      have hclean2 : ∀ m ∈ ((fun st => cycle_mode env st)^[k]
          s).available_modes, creates_ok env m = true :=
        fun m hm => hclean m (by rw [ih.1] at hm; exact hm)
      have hcur : ((fun st => cycle_mode env st)^[k] s).current_mode_name =
          ((fun st => cycle_mode env st)^[k] s).available_modes.get
            ⟨(i + k) % s.available_modes.length, hj⟩ := by
        rw [ih.2]
        have hj2 : (i + k) % s.available_modes.length <
            s.available_modes.length := Nat.mod_lt _ hlen
        rw [List.getD_eq_getElem _ _ hj2]
        simp only [List.get_eq_getElem]
        congr 1
        exact ih.1.symm
      obtain ⟨ha, hb⟩ := cycle_mode_step env _ _ hj hnd hclean2 hcur
      refine ⟨by rw [ha, ih.1], ?_⟩
      rw [hb, ih.1]
      congr 1
      rw [Nat.mod_add_mod, Nat.add_assoc]

/-- C8 amended: when `available_modes` has no duplicate entries AND every
listed mode constructs normally (no entry takes the escaping no-class
raise of `_create_mode_instance`), `cycle_mode` advances from the current
position to the next entry circularly (wrapping from the last entry to
index 0 via the modulo), and N calls — N the length of `available_modes` —
return to the original mode. With duplicates, or with a class-less entry
like the shipped `battery_monitor`, the round-trip fails (see the
counterexample). -/
theorem C8_amended_cycle_round_trip (env : ImportEnv) (s : ModeManagerState)
    (nd : s.available_modes.Nodup)
    (hmem : s.current_mode_name ∈ s.available_modes)
    (hclean : ∀ m ∈ s.available_modes, creates_ok env m = true) :
    (∀ (i : Nat) (h : i < s.available_modes.length),
      s.current_mode_name = s.available_modes.get ⟨i, h⟩ →
      (cycle_mode env s).current_mode_name =
        s.available_modes.getD ((i + 1) % s.available_modes.length) "") ∧
    ((fun st => cycle_mode env st)^[s.available_modes.length] s).current_mode_name =
      s.current_mode_name := by
  constructor
  · intro i h hc
    exact (cycle_mode_step env s i h nd hclean hc).2
  · obtain ⟨⟨i, h⟩, hg⟩ := List.mem_iff_get.mp hmem
    have hiter := (cycle_mode_iterate env s nd i h hclean hg.symm
      s.available_modes.length).2
    rw [hiter, Nat.add_mod_right, Nat.mod_eq_of_lt h,
      List.getD_eq_getElem _ _ h, ← hg]
    simp [List.get_eq_getElem]

/-- Witness for C8 amended: on the duplicate-free manager with modes
`["a", "b"]`, all of whose entries construct normally, two cycles return
to the starting mode. -/
theorem C8_amended_cycle_round_trip_witness :
    ((fun st => cycle_mode envNone st)^[mgrPair.available_modes.length]
      mgrPair).current_mode_name = mgrPair.current_mode_name :=
  (C8_amended_cycle_round_trip envNone mgrPair (by decide) (by decide)
    (by decide)).2

/-- Auxiliary: none of the scheduled servo-movement actions clears the
chime flag. -/
theorem movements_filter_clears (n : Nat) (spacing : Rat) :
    (((List.range n).map (fun (i : Nat) =>
      ((i : Rat) * spacing,
        (if i % 2 = 0 then ChimeCallback.servoTop else ChimeCallback.servoBottom,
         "movement_" ++ toString (i + 1) ++
           (if i % 2 = 0 then "_top" else "_bottom"))))).filter
      (fun t => clears_chime_flag t.2.1)) = [] := by
  rw [List.filter_eq_nil_iff]
  intro x hx
  rcases List.mem_map.mp hx with ⟨i, hi, rfl⟩
  by_cases h : i % 2 = 0 <;> simp [clears_chime_flag, h]

/-- C10: while `chime_in_progress` is true, `perform_hourly_chime` returns
immediately with the state (including the queue) untouched, so two chime
sequences never overlap; when a sequence does start (non-critical battery),
the flag is set and exactly one of the scheduled actions — the finishing
callback — clears it, and running that callback does clear it. -/
theorem C10_no_overlapping_chimes (critical lightOk : Bool)
    (chime_volume chime_spacing now base_volume : Rat) (hasFiles : Bool)
    (s : ClockChimeState) :
    (s.chime_in_progress = true →
      perform_hourly_chime critical lightOk chime_volume chime_spacing now
        hasFiles s = s) ∧
    (s.chime_in_progress = false → critical = false →
      (perform_hourly_chime critical lightOk chime_volume chime_spacing now
        hasFiles s).chime_in_progress = true ∧
      ((chime_schedule_plan lightOk chime_spacing hasFiles
          s.current_hour).filter
        (fun t => clears_chime_flag t.2.1)).length = 1) ∧
    (∀ (cb : ChimeCallback) (s2 : ClockChimeState),
      clears_chime_flag cb = true →
      (run_chime_callback base_volume cb s2).chime_in_progress = false) := by
  refine ⟨?_, ?_, ?_⟩
  · intro h
    simp [perform_hourly_chime, h]
  · intro h hcrit
    subst hcrit
    constructor
    · cases lightOk <;> simp [perform_hourly_chime, h]
    · cases lightOk with
      | false => simp [chime_schedule_plan, clears_chime_flag]
      | true =>
          simp only [chime_schedule_plan, Bool.not_true, not_true_eq_false,
            if_false, List.filter_append]
          rw [movements_filter_clears]
          simp [clears_chime_flag]
  · intro cb s2 hcb
    cases cb <;> simp_all [clears_chime_flag, run_chime_callback]

/-- Witness for C10: with a chime already in progress, the call leaves the
state exactly as it was. -/
theorem C10_no_overlapping_chimes_witness :
    perform_hourly_chime false true (7/10) (4/5) 0 true
      { clock0 with chime_in_progress := true } =
      { clock0 with chime_in_progress := true } :=
  (C10_no_overlapping_chimes false true (7/10) (4/5) 0 (3/5) true
    { clock0 with chime_in_progress := true }).1 rfl

/-- Auxiliary: membership through the descending-insert step. -/
theorem mem_insert_desc (x a : String × Nat) :
    ∀ l : List (String × Nat), x ∈ insert_desc a l ↔ x = a ∨ x ∈ l := by
  intro l
  induction l with
  | nil => simp [insert_desc]
  | cons b t ih =>
      unfold insert_desc
      split
      · simp
      · simp only [List.mem_cons, ih]
        tauto

/-- Auxiliary: the descending sort preserves membership. -/
theorem mem_sort_desc (x : String × Nat) :
    ∀ l : List (String × Nat), x ∈ sort_desc_by_caws l ↔ x ∈ l := by
  intro l
  induction l with
  | nil => simp [sort_desc_by_caws]
  | cons a t ih =>
      unfold sort_desc_by_caws
      rw [mem_insert_desc, ih]
      simp

/-- Auxiliary: a found first fit is a list member that fits. -/
theorem find_first_fit_eq_some (r : Nat) (fc : String × Nat) :
    ∀ l : List (String × Nat), find_first_fit r l = some fc →
      fc ∈ l ∧ fc.2 ≤ r := by
  intro l
  induction l with
  | nil => intro h; simp [find_first_fit] at h
  | cons b t ih =>
      unfold find_first_fit
      split
      · intro h
        injection h with h
        subst h
        exact ⟨List.mem_cons_self _ _, by assumption⟩
      · intro h
        obtain ⟨hm, hle⟩ := ih h
        exact ⟨List.mem_cons_of_mem _ hm, hle⟩

/-- Auxiliary: a fitting member guarantees the scan succeeds. -/
theorem find_first_fit_isSome (r : Nat) (p : String × Nat) :
    ∀ l : List (String × Nat), p ∈ l → p.2 ≤ r →
      ∃ fc, find_first_fit r l = some fc := by
  intro l
  induction l with
  | nil => intro h; simp at h
  | cons b t ih =>
      intro hmem hle
      unfold find_first_fit
      split
      · exact ⟨b, rfl⟩
      · rcases List.mem_cons.mp hmem with h | h
        · subst h; omega
        · exact ih h hle

/-- Auxiliary: with duplicate-free filenames, the configured weight of a
member pair's name is its caw count. -/
theorem caw_weight_of_mem :
    ∀ (files : List (String × Nat)) (n : String) (c : Nat),
      (files.map Prod.fst).Nodup → (n, c) ∈ files →
      caw_weight files n = c := by
  intro files
  induction files with
  | nil => intro n c _ h; simp at h
  | cons q rest ih =>
      intro n c hnd hmem
      have hnd2 : q.1 ∉ rest.map Prod.fst ∧ (rest.map Prod.fst).Nodup := by
        rw [List.map_cons, List.nodup_cons] at hnd
        exact hnd
      by_cases hq : q.1 = n
      · have : q = (n, c) := by
          rcases List.mem_cons.mp hmem with h | h
          · exact h.symm
          · exact absurd (by rw [hq]; exact List.mem_map_of_mem Prod.fst h)
              hnd2.1
        subst this
        simp [caw_weight, List.find?]
      · have hmem2 : (n, c) ∈ rest := by
          rcases List.mem_cons.mp hmem with h | h
          · exact absurd (congrArg Prod.fst h.symm) hq
          · exact h
        unfold caw_weight
        rw [List.find?_cons_of_neg]
        · exact ih n c hnd2.2 hmem2
        · simpa using hq

/-- Auxiliary: when every configured count is at least 1 and some sorted
entry has count exactly 1, the greedy loop (with fuel covering the target)
selects files whose configured weights sum to exactly the remaining
count. -/
theorem greedy_select_weight (files sorted : List (String × Nat))
    (hsub : ∀ p, p ∈ sorted → p ∈ files)
    (hnodup : (files.map Prod.fst).Nodup)
    (hpos : ∀ p, p ∈ files → 1 ≤ p.2)
    (hone : ∃ p, p ∈ sorted ∧ p.2 = 1) :
    ∀ fuel remaining : Nat, remaining ≤ fuel →
      selection_weight files
        (greedy_select FallbackBehavior.repeat_single sorted fuel remaining) =
        remaining := by
  intro fuel
  induction fuel with
  | zero =>
      intro remaining hle
      have : remaining = 0 := by omega
      subst this
      simp [greedy_select, selection_weight]
  | succ f ih =>
      intro remaining hle
      cases remaining with
      | zero => simp [greedy_select, selection_weight]
      | succ r =>
          obtain ⟨p, hp, hp1⟩ := hone
          obtain ⟨fc, hfc⟩ :=
            find_first_fit_isSome (r + 1) p sorted hp (by omega)
          obtain ⟨hfcmem, hfcle⟩ := find_first_fit_eq_some (r + 1) fc sorted hfc
          have hfcfiles := hsub fc hfcmem
          have hw : caw_weight files fc.1 = fc.2 :=
            caw_weight_of_mem files fc.1 fc.2 hnodup (by
              rcases fc with ⟨n, c⟩; exact hfcfiles)
          have hpos2 : 1 ≤ fc.2 := hpos fc hfcfiles
          show selection_weight files
            (greedy_select FallbackBehavior.repeat_single sorted (f + 1) (r + 1)) =
            r + 1
          rw [greedy_select, hfc]
          simp only [selection_weight, List.map_cons, List.sum_cons]
          rw [hw]
          have := ih (r + 1 - fc.2) (by omega)
          simp only [selection_weight] at this
          rw [this]
          omega

/-- C4 counterexample: with the single weighted clip `{A: 2}` and target
count 1 (a legal target, N ≥ 1), the `repeat_single` fallback has no
weight-1 clip to repeat and returns the smallest available file, so the
selection `[A]` has weight 2 — it EXCEEDS the target, refuting "never
exceed N" for arbitrary clip sets. -/
theorem C4_counterexample :
    find_optimal_file_combination allFilesOk FallbackBehavior.repeat_single
      [("A", 2)] 1 = [some "A"] ∧
    selection_weight [("A", 2)]
      (find_optimal_file_combination allFilesOk FallbackBehavior.repeat_single
        [("A", 2)] 1) = 2 ∧
    ¬ selection_weight [("A", 2)]
      (find_optimal_file_combination allFilesOk FallbackBehavior.repeat_single
        [("A", 2)] 1) ≤ 1 := by
  exact ⟨by decide, by decide, by decide⟩

/-- C4 amended: the selection is greedy largest-first by construction, and
whenever the configured clips have pairwise-distinct names, weights ≥ 1
and include a weight-1 clip, the `repeat_single` selection's weights sum
to EXACTLY the target N ≥ 1 (hence never exceed it); without a weight-1
clip the fallback can overshoot (see the counterexample). In particular
for clips `{A: 2, B: 1}` and N = 5 the selection sums to exactly 5. -/
theorem C4_amended_exact_fill (files : List (String × Nat)) (N : Nat)
    (hN : 1 ≤ N) (hnodup : (files.map Prod.fst).Nodup)
    (hpos : ∀ p, p ∈ files → 1 ≤ p.2)
    (hone : ∃ p, p ∈ files ∧ p.2 = 1) :
    selection_weight files
      (find_optimal_file_combination allFilesOk FallbackBehavior.repeat_single
        files N) = N := by
  obtain ⟨m, rfl⟩ : ∃ m, N = m + 1 := ⟨N - 1, by omega⟩
  unfold find_optimal_file_combination
  have hfilter : files.filter (fun p => allFilesOk p.1) = files := by
    simp [allFilesOk]
  rw [if_neg (by omega)]
  dsimp only
  rw [hfilter]
  obtain ⟨p, hp, hp1⟩ := hone
  rw [if_neg (by rintro rfl; simp at hp)]
  have hone2 : ∃ q, q ∈ sort_desc_by_caws files ∧ q.2 = 1 :=
    ⟨p, (mem_sort_desc p files).mpr hp, hp1⟩
  have hsub : ∀ q, q ∈ sort_desc_by_caws files → q ∈ files :=
    fun q hq => (mem_sort_desc q files).mp hq
  have hmain := greedy_select_weight files (sort_desc_by_caws files) hsub
    hnodup hpos hone2 (m + 1) (m + 1) (le_refl _)
  obtain ⟨q, hq, hq1⟩ := hone2
  obtain ⟨fc, hfc⟩ :=
    find_first_fit_isSome (m + 1) q (sort_desc_by_caws files) hq (by omega)
  have hne : greedy_select FallbackBehavior.repeat_single
      (sort_desc_by_caws files) (m + 1) (m + 1) ≠ [] := by
    rw [greedy_select, hfc]
    simp
  rw [if_neg hne]
  exact hmain

/-- Witness for C4 amended at the claim's named instance: clips
`{A: 2, B: 1}` and target 5 sum to exactly 5. -/
theorem C4_amended_exact_fill_witness :
    selection_weight [("A", 2), ("B", 1)]
      (find_optimal_file_combination allFilesOk FallbackBehavior.repeat_single
        [("A", 2), ("B", 1)] 5) = 5 :=
  C4_amended_exact_fill [("A", 2), ("B", 1)] 5 (by norm_num) (by decide)
    (by decide) ⟨("B", 1), by decide, rfl⟩

/-- Auxiliary: a strictly smaller key is never reachable the other way
round. -/
theorem actKeyLt_not_le {α : Type} {a b : ScheduledAction α}
    (h : actKeyLt a b) : ¬ actKeyLe b a := by
  unfold actKeyLt at h
  unfold actKeyLe
  rcases h with h | ⟨h, hi⟩
  · rintro (h2 | ⟨h2, _⟩)
    · exact absurd (lt_trans h h2) (lt_irrefl _)
    · exact absurd (h2 ▸ h) (lt_irrefl _)
  · rintro (h2 | ⟨h2, hi2⟩)
    · exact absurd (h ▸ h2) (lt_irrefl _)
    · omega

/-- C1: two actions scheduled at the same tick with delays d1 ≤ d2,
drained at any time at or after both target times, are both executed, and
the d1 action strictly before the d2 action — the drain executes due
actions in ascending target-time order with first-scheduled-first ties. -/
theorem C1_drain_executes_in_order {α : Type} (q : DelayedActionQueue α)
    (now d1 d2 t : Rat) (cb1 cb2 : α) (l1 l2 : String)
    (hd : d1 ≤ d2) (ht : now + d2 ≤ t) :
    ∃ i j : Fin ((((q.schedule now d1 cb1 l1).2.schedule now d2 cb2
        l2).2.drain_due t).1.length),
      (i : Nat) < (j : Nat) ∧
      ((((q.schedule now d1 cb1 l1).2.schedule now d2 cb2
          l2).2.drain_due t).1.get i =
        { id := q.next_id, target_time := now + d1, label := l1,
          callback := cb1 }) ∧
      ((((q.schedule now d1 cb1 l1).2.schedule now d2 cb2
          l2).2.drain_due t).1.get j =
        { id := q.next_id + 1, target_time := now + d2, label := l2,
          callback := cb2 }) := by
  set act1 : ScheduledAction α :=
    { id := q.next_id, target_time := now + d1, label := l1,
      callback := cb1 } with hact1
  set act2 : ScheduledAction α :=
    { id := q.next_id + 1, target_time := now + d2, label := l2,
      callback := cb2 } with hact2
  have hpend : ((q.schedule now d1 cb1 l1).2.schedule now d2 cb2
      l2).2.pending = (q.pending ++ [act1]) ++ [act2] := rfl
  set due := (((q.schedule now d1 cb1 l1).2.schedule now d2 cb2
      l2).2.pending).filter (fun a => a.target_time ≤ t) with hdue
  have hex : ((((q.schedule now d1 cb1 l1).2.schedule now d2 cb2
      l2).2.drain_due t)).1 = sortByKey due := rfl
  have hperm := List.perm_insertionSort (actKeyLe (α := α)) due
  have h1due : act1 ∈ due := by
    rw [hdue, hpend]
    refine List.mem_filter.mpr ⟨by simp, ?_⟩
    simp only [hact1, decide_eq_true_eq]
    calc now + d1 ≤ now + d2 := by linarith
    _ ≤ t := ht
  have h2due : act2 ∈ due := by
    rw [hdue, hpend]
    refine List.mem_filter.mpr ⟨by simp, ?_⟩
    simp only [hact2, decide_eq_true_eq]
    exact ht
  have h1mem : act1 ∈ sortByKey due := by
    unfold sortByKey
    exact hperm.mem_iff.mpr h1due
  have h2mem : act2 ∈ sortByKey due := by
    unfold sortByKey
    exact hperm.mem_iff.mpr h2due
  obtain ⟨i, hi⟩ := List.mem_iff_get.mp h1mem
  obtain ⟨j, hj⟩ := List.mem_iff_get.mp h2mem
  have hlt : actKeyLt act1 act2 := by
    unfold actKeyLt
    rcases lt_or_eq_of_le (by linarith : now + d1 ≤ now + d2) with h | h
    · exact Or.inl h
    · exact Or.inr ⟨h, by simp [hact1, hact2]⟩
  have hsorted : List.Sorted actKeyLe (sortByKey due) :=
    List.sorted_insertionSort actKeyLe due
  have hij : (i : Nat) < (j : Nat) := by
    rcases lt_trichotomy (i : Nat) (j : Nat) with h | h | h
    · exact h
    · exfalso
      have : act1 = act2 := by
        rw [← hi, ← hj]
        congr 1
        exact Fin.ext h
      have : act1.id = act2.id := congrArg ScheduledAction.id this
      simp [hact1, hact2] at this
    · exfalso
      have hle : actKeyLe ((sortByKey due).get j) ((sortByKey due).get i) :=
        (List.pairwise_iff_get.mp hsorted) j i h
      rw [hi, hj] at hle
      exact actKeyLt_not_le hlt hle
  rw [hex]
  exact ⟨i, j, hij, hi, hj⟩

/-- Witness for C1: two actions scheduled at tick 0 with delays 1 ≤ 2 into
the empty queue, drained at time 5, execute first-then-second. -/
theorem C1_drain_executes_in_order_witness :
    (1 : Rat) ≤ 2 ∧ (0 : Rat) + 2 ≤ 5 ∧
    (∃ i j : Fin (((((DelayedActionQueue.empty Nat).schedule 0 1 10
        "first").2.schedule 0 2 20 "second").2.drain_due 5).1.length),
      (i : Nat) < (j : Nat) ∧
      (((((DelayedActionQueue.empty Nat).schedule 0 1 10
          "first").2.schedule 0 2 20 "second").2.drain_due 5).1.get i =
        { id := (DelayedActionQueue.empty Nat).next_id, target_time := 0 + 1,
          label := "first", callback := 10 }) ∧
      (((((DelayedActionQueue.empty Nat).schedule 0 1 10
          "first").2.schedule 0 2 20 "second").2.drain_due 5).1.get j =
        { id := (DelayedActionQueue.empty Nat).next_id + 1,
          target_time := 0 + 2, label := "second", callback := 20 })) :=
  ⟨by norm_num, by norm_num,
    C1_drain_executes_in_order (DelayedActionQueue.empty Nat) 0 1 2 5 10 20
      "first" "second" (by norm_num) (by norm_num)⟩
